import Mathlib

/-!
Verification of the conversation-store and prompt pipeline of a
natural-language-to-SQL chat endpoint (source: src/index.js).

The JavaScript module keeps a process-global `Map` from conversation
identifier to an array of turns.  We embed the store as a function
`String → Option (List Turn)` (the `Map`), and each source function as a
pure function that takes and returns the store explicitly.  Timestamps
(`new Date().toISOString()` in the source) are passed in as explicit
string arguments.  The two external services (the generation model and
the warehouse) are modelled as oracle functions in an environment
record, returning `Except` to model call failure.
-/

/-- One conversation turn, as pushed by `addToConversationHistory`:
`{ role, content, timestamp: new Date().toISOString() }`. -/
structure Turn where
  role : String
  content : String
  timestamp : String
deriving DecidableEq, Repr

/-- The process-global `conversationHistory = new Map()`: a keyed lookup
from conversation identifier to its history. -/
def Store : Type := String → Option (List Turn)

/-- `Map.prototype.get`. -/
def mapGet (s : Store) (id : String) : Option (List Turn) := s id

/-- `Map.prototype.has`. -/
def mapHas (s : Store) (id : String) : Bool := (s id).isSome

/-- `Map.prototype.set`. -/
def mapSet (s : Store) (id : String) (v : List Turn) : Store :=
  fun k => if k = id then some v else s k

/-- `Map.prototype.delete`. -/
def mapDelete (s : Store) (id : String) : Store :=
  fun k => if k = id then none else s k

/-- The store at process start: no conversation recorded. -/
def emptyStore : Store := fun _ => none

/-- src/index.js lines 36-38:
`return conversationHistory.get(conversationId) || [];`. -/
def getConversationHistory (s : Store) (conversationId : String) : List Turn :=
  (mapGet s conversationId).getD []

/-- src/index.js lines 41-55: create the entry if absent, push the new
turn, then `history.splice(0, history.length - 10)` when the length
exceeds 10 (keep the last 10), and store the result back. -/
def addToConversationHistory (s : Store) (conversationId role content timestamp : String) :
    Store :=
  let s1 : Store := if mapHas s conversationId then s else mapSet s conversationId []
  let history := (mapGet s1 conversationId).getD []
  let history := history ++ [{ role := role, content := content, timestamp := timestamp }]
  let history := if history.length > 10 then history.drop (history.length - 10) else history
  mapSet s1 conversationId history

/-- src/index.js lines 58-60: `conversationHistory.delete(conversationId)`. -/
def clearConversationHistory (s : Store) (conversationId : String) : Store :=
  mapDelete s conversationId

/-- Specification helper: keep the last (at most) 10 entries of a list.
Equal to the conditional splice the source performs. -/
def trimLast10 (l : List Turn) : List Turn := l.drop (l.length - 10)

/-- Fold a list of (role, content, timestamp) triples into the store by
repeated `addToConversationHistory` under one conversation identifier. -/
def appendAll (s : Store) (conversationId : String)
    (ts : List (String × String × String)) : Store :=
  ts.foldl (fun acc t => addToConversationHistory acc conversationId t.1 t.2.1 t.2.2) s

/-- The turn built from a (role, content, timestamp) triple. -/
def mkTurn (t : String × String × String) : Turn :=
  { role := t.1, content := t.2.1, timestamp := t.2.2 }

/-- A mutation of the conversation store: the module performs exactly two
kinds (the two appends of processMessage, and the clear endpoint). -/
inductive StoreOp where
  | append (conversationId role content timestamp : String)
  | clear (conversationId : String)

/-- Apply one store mutation. -/
def applyOp (s : Store) : StoreOp → Store
  | .append id role content ts => addToConversationHistory s id role content ts
  | .clear id => clearConversationHistory s id

/-- Apply a sequence of store mutations, oldest first. -/
def applyOps (s : Store) : List StoreOp → Store
  | [] => s
  | op :: rest => applyOps (applyOp s op) rest

/-- The claimed store invariant: every present history has at most 10
turns. -/
def boundedStore (s : Store) : Prop :=
  ∀ id l, mapGet s id = some l → l.length ≤ 10

-- ### SQL extraction (the parsing step of getSQLFromGemini, lines 197-198)

/-- Does the character list begin with three backticks. -/
def startsWithTicks3 (cs : List Char) : Bool :=
  match cs with
  | a :: b :: c :: _ => a = '`' && b = '`' && c = '`'
  | _ => false

/-- The regex fragment /```sql\n/i matches at the head of the character
list: three backticks, then the letters s q l in either case (the i
flag), then a newline. -/
def sqlFenceAt (cs : List Char) : Bool :=
  match cs with
  | a :: b :: c :: s :: q :: l :: n :: _ =>
      a = '`' && b = '`' && c = '`'
        && s.toLower = 's' && q.toLower = 'q' && l.toLower = 'l' && n = '\n'
  | _ => false

/-- The lazy capture ([\s\S]*?) followed by ``` : the characters strictly
before the first occurrence of three backticks, or `none` when no such
occurrence exists (the regex then fails at this start position). -/
def takeUntilTicks : List Char → Option (List Char)
  | [] => none
  | c :: cs =>
    if startsWithTicks3 (c :: cs) then some []
    else (takeUntilTicks cs).map (fun l => c :: l)

/-- Left-to-right scan of the regex engine: at the first position where
the opening fence /```sql\n/i matches and a closing ``` follows, return
the captured interior. -/
def findSqlFence : List Char → Option (List Char)
  | [] => none
  | c :: cs =>
    if sqlFenceAt (c :: cs) then
      match takeUntilTicks ((c :: cs).drop 7) with
      | some interior => some interior
      | none => findSqlFence cs
    else findSqlFence cs

/-- src/index.js lines 197-198:
`const sqlMatch = geminiText.match(/```sql\n([\s\S]*?)```/i);`
`return sqlMatch ? sqlMatch[1].trim() : geminiText.trim();`
(JavaScript `String.prototype.trim` is modelled by `String.trim`). -/
def extractSql (geminiText : String) : String :=
  match findSqlFence geminiText.toList with
  | some interior => (String.mk interior).trim
  | none => geminiText.trim

/-- Does the character list contain three consecutive backticks. -/
def hasTicks3 : List Char → Bool
  | [] => false
  | c :: cs => startsWithTicks3 (c :: cs) || hasTicks3 cs

/-- Specification-side predicate: the text contains a complete fenced
code block tagged sql (tag letters in either case) with a closing
fence. -/
def containsSqlFence (cs : List Char) : Prop :=
  ∃ pre s q l mid post,
    cs = pre ++ '`' :: '`' :: '`' :: s :: q :: l :: '\n' :: (mid ++ '`' :: '`' :: '`' :: post)
    ∧ s.toLower = 's' ∧ q.toLower = 'q' ∧ l.toLower = 'l'

-- ### Schema catalog and prompt construction

/-- One column of a table schema (table_schema.json). -/
structure Column where
  name : String
  type : String
deriving DecidableEq, Repr

/-- One table descriptor of the startup-loaded schema catalog. -/
structure TableDescriptor where
  datasetName : String
  tableName : String
  schema : List Column
deriving DecidableEq, Repr

/-- The environment-sourced scalars (`PROJECT_ID`, `AGENT_NAME`) and the
startup-loaded `allTableSchemas`, bundled as explicit read-only
configuration. -/
structure Config where
  projectId : String
  agentName : String
  catalog : List TableDescriptor

/-- `Array.prototype.join(sep)`. -/
def joinWith (sep : String) : List String → String
  | [] => ""
  | [x] => x
  | x :: y :: xs => x ++ sep ++ joinWith sep (y :: xs)

/-- The per-column line of the schema rendering (line 95):
`` `*   ${col.name} (${col.type})` ``. -/
def columnLine (col : Column) : String :=
  "*   " ++ col.name ++ " (" ++ col.type ++ ")"

/-- The per-table block of the schema rendering (lines 96-101). -/
def schemaEntry (projectId : String) (table : TableDescriptor) : String :=
  let schemaString := joinWith "\n    " (table.schema.map columnLine)
  "\n    Table: `" ++ projectId ++ "." ++ table.datasetName ++ "." ++ table.tableName
    ++ "`\n\n    Table schema:\n    " ++ schemaString ++ "\n    "

/-- Specification helper: the fully-qualified table name
`project.dataset.table` (the text between the backticks of the rendered
table line). -/
def fqTableName (projectId : String) (table : TableDescriptor) : String :=
  projectId ++ "." ++ table.datasetName ++ "." ++ table.tableName

/-- One rendered history line (line 109):
`` `${msg.role === 'user' ? 'User' : 'Assistant'}: ${msg.content}` ``. -/
def renderTurnLine (msg : Turn) : String :=
  (if msg.role = "user" then "User" else "Assistant") ++ ": " ++ msg.content

/-- src/index.js lines 91-183: the SQL-drafting prompt.  The source reads
the globals `allTableSchemas`, `PROJECT_ID` and the conversation store;
they are passed here explicitly. -/
def buildPrompt (cfg : Config) (store : Store) (messageText conversationId : String) :
    String :=
  let conversationHistory := getConversationHistory store conversationId
  let allSchemasString := joinWith "\n" (cfg.catalog.map (schemaEntry cfg.projectId))
  let conversationContext :=
    if conversationHistory.length > 0 then
      "\n    ### Previous Conversation Context:\n    "
        ++ joinWith "\n" (conversationHistory.map renderTurnLine)
        ++ "\n    \n    ---\n    "
    else ""
  "\n    You must use one of the following tables as the data source:\n    "
    ++ allSchemasString
    ++ "\n\n    "
    ++ conversationContext
    ++ "\n\n    ### Rules:

    1. Return only the SQL code, without any explanations or additional text.
    2. The query must be 100% compatible with BigQuery Standard SQL.
    3. If the user's question is unclear or lacks context, generate the most generic SQL that still makes sense, selecting the most relevant table.
    4. Always limit the results to a maximum of 100 rows using `LIMIT 100` if there is no natural filter.
    5. Always include the fully qualified table name (e.g., `project.dataset.table`) in the FROM clause.
    6. Consider the conversation context when interpreting the current question. If the user refers to previous results or asks follow-up questions, use that context to build more relevant queries.

    ### Examples:

    #### Example 1 (using monthly_sales):

    **Question:** \"How much did we sell in total last month?\"

    **SQL Answer:**

    ```sql
    SELECT SUM(total_sale) AS total_sales
    FROM `project_id.my_dataset.monthly_sales`
    WHERE EXTRACT(YEAR FROM date) = EXTRACT(YEAR FROM CURRENT_DATE())
    AND EXTRACT(MONTH FROM date) = EXTRACT(MONTH FROM DATE_SUB(CURRENT_DATE(), INTERVAL 1 MONTH));
    ```

    ---

    #### Example 2 (using monthly_sales):

    **Question:** \"Show me sales by region for this year.\"

    **SQL Answer:**

    ```sql
    SELECT region, SUM(total_sale) AS total_sales
    FROM `project_id.my_dataset.monthly_sales`
    WHERE EXTRACT(YEAR FROM date) = EXTRACT(YEAR FROM CURRENT_DATE())
    GROUP BY region;
    ```

    ---

    #### Example 3 (using customer_data):

    **Question:** \"List all customers registered in 2023.\"

    **SQL Answer:**

    ```sql
    SELECT customer_id, name, email
    FROM `project_id.my_dataset.customer_data`
    WHERE EXTRACT(YEAR FROM registration_date) = 2023
    LIMIT 100;
    ```

    ---

    Now, convert the following question into BigQuery SQL following the same format:

    **Question:** \""
    ++ messageText
    ++ "\"

    **SQL Answer:**
"

-- ### External services and the request pipeline

/-- The two external collaborators (generation service, warehouse),
modelled as oracles.  `ρ` is the warehouse row-set type; a call that
fails (rejected promise) is an `Except.error` carrying the message. -/
structure Env (ρ : Type) where
  sqlModelReply : String → Except String String
  queryRows : String → Except String ρ
  stringifyRows : ρ → String
  narrateModelReply : String → Except String String

/-- src/index.js lines 185-199: call the model with the prompt, then
parse the reply with `extractSql`. -/
def getSQLFromGemini (env : Env ρ) (promptText : String) : Except String String :=
  match env.sqlModelReply promptText with
  | .error e => .error e
  | .ok geminiText => .ok (extractSql geminiText)

/-- src/index.js lines 201-204: thin call-through to the warehouse. -/
def runBigQuery (env : Env ρ) (sql : String) : Except String ρ :=
  env.queryRows sql

/-- The narration instruction template of formatBigQueryResult
(lines 207-231). -/
def narrationPrompt (agentName question rowsJson : String) : String :=
  "\n  You are "
    ++ agentName
    ++ ", a data analysis assistant.

  Your task is to interpret and translate the result of an SQL query executed in BigQuery into clear natural language.

  You will receive two inputs:

  1. The original question asked by the user in natural language.
  2. The result of the SQL query, provided as JSON (with rows and columns).

  Your response must:

  - Be clear and concise.
  - Answer the user's original question directly, based on the data in the SQL result.
  - Avoid technical language or SQL references.
  - Do not explain how the SQL query was built, only interpret the result.

  ---

  ***USER'S ORIGINAL QUESTION***
  "
    ++ question
    ++ "\n\n  ***SQL QUERY RESULT (JSON)***\n  "
    ++ rowsJson
    ++ "\n"

/-- src/index.js lines 206-238: build the narration prompt (rows
serialized by `JSON.stringify`, modelled by `Env.stringifyRows`) and
call the model. -/
def formatBigQueryResult (cfg : Config) (env : Env ρ) (question : String) (rows : ρ) :
    Except String String :=
  env.narrateModelReply (narrationPrompt cfg.agentName question (env.stringifyRows rows))

/-- src/index.js lines 67-87: the request pipeline.  `ts1` and `ts2` are
the wall-clock timestamps of the two appends.  The returned store is the
global store after the call: a failure in any awaited step propagates
(caught by the endpoint handler) and leaves the store as it was at that
point. -/
def processMessage (cfg : Config) (env : Env ρ) (s : Store)
    (messageText conversationId ts1 ts2 : String) : Store × Except String String :=
  let s1 := addToConversationHistory s conversationId "user" messageText ts1
  let geminiPrompt := buildPrompt cfg s1 messageText conversationId
  match getSQLFromGemini env geminiPrompt with
  | .error e => (s1, .error e)
  | .ok sqlQuery =>
    match runBigQuery env sqlQuery with
    | .error e => (s1, .error e)
    | .ok bigQueryResult =>
      match formatBigQueryResult cfg env messageText bigQueryResult with
      | .error e => (s1, .error e)
      | .ok formattedResponse =>
        (addToConversationHistory s1 conversationId "assistant" formattedResponse ts2,
         .ok formattedResponse)

-- ### The HTTP endpoint handlers

/-- The response of the chat endpoint: the 200 json or the catch-all 500. -/
inductive ChatResponse where
  | ok (text : String) (conversationId : String)
  | err (status : Nat) (text : String)
deriving DecidableEq, Repr

/-- The response of the clear endpoint. -/
structure ClearResponse where
  success : Bool
  message : String
  conversationId : String
deriving DecidableEq, Repr

/-- The response of the history endpoint. -/
structure HistoryResponse where
  conversationId : String
  history : List Turn
  messageCount : Nat
deriving DecidableEq, Repr

/-- src/index.js lines 22-33, `exports.chatBot`.  The request's optional
`conversationId` is an `Option String`; `req.body.conversationId ||
'default'` falls back to "default" when the field is absent or is the
empty string (both are falsy). -/
def chatBot (cfg : Config) (env : Env ρ) (s : Store)
    (messageText : String) (conversationId? : Option String) (ts1 ts2 : String) :
    Store × ChatResponse :=
  let conversationId :=
    match conversationId? with
    | none => "default"
    | some cid => if cid = "" then "default" else cid
  match processMessage cfg env s messageText conversationId ts1 ts2 with
  | (s2, .ok replyText) => (s2, .ok replyText conversationId)
  | (s2, .error e) =>
    (s2, .err 500 ("An error occurred while processing your request: " ++ e))

/-- src/index.js lines 241-257, `exports.clearConversation`. -/
def clearConversation (s : Store) (conversationId? : Option String) :
    Store × ClearResponse :=
  let conversationId :=
    match conversationId? with
    | none => "default"
    | some cid => if cid = "" then "default" else cid
  (clearConversationHistory s conversationId,
   { success := true,
     message := "Conversation history cleared for ID: " ++ conversationId,
     conversationId := conversationId })

/-- src/index.js lines 260-276, `exports.getConversationHistory` (renamed
to avoid the clash with the module-internal function of the same name).
The handler only reads the store; it is returned unchanged to make the
absence of mutation part of the embedding's statement. -/
def getConversationHistoryHandler (s : Store) (conversationId? : Option String) :
    Store × HistoryResponse :=
  let conversationId :=
    match conversationId? with
    | none => "default"
    | some cid => if cid = "" then "default" else cid
  let history := getConversationHistory s conversationId
  (s, { conversationId := conversationId, history := history,
        messageCount := history.length })

-- ### Concrete sample data used by the witness theorems

/-- Twelve concrete appends for the C1 witness: two more than the bound. -/
def c1SampleTurns : List (String × String × String) :=
  [("user", "m1", "t1"), ("assistant", "m2", "t2"), ("user", "m3", "t3"),
   ("assistant", "m4", "t4"), ("user", "m5", "t5"), ("assistant", "m6", "t6"),
   ("user", "m7", "t7"), ("assistant", "m8", "t8"), ("user", "m9", "t9"),
   ("assistant", "m10", "t10"), ("user", "m11", "t11"), ("assistant", "m12", "t12")]

/-- A concrete configuration for witnesses. -/
def wCfg : Config := { projectId := "p", agentName := "A", catalog := [] }

/-- A concrete environment whose warehouse call always fails. -/
def wEnvFail : Env Unit :=
  { sqlModelReply := fun _ => .ok "```sql\nSELECT 1\n```",
    queryRows := fun _ => .error "boom",
    stringifyRows := fun _ => "[]",
    narrateModelReply := fun _ => .ok "done" }

/-- A concrete table, catalog and store for the C7 witness. -/
def wTable : TableDescriptor :=
  { datasetName := "ds", tableName := "sales",
    schema := [{ name := "region", type := "STRING" }, { name := "total", type := "INT64" }] }

/-- A concrete configuration whose catalog holds `wTable`. -/
def wCfg7 : Config := { projectId := "proj", agentName := "A", catalog := [wTable] }

/-- A concrete store with one recorded turn under "c". -/
def wStore7 : Store := addToConversationHistory emptyStore "c" "user" "hello" "t1"

-- ### Basic store lemmas

theorem mapGet_mapSet_self (s : Store) (id : String) (v : List Turn) :
    mapGet (mapSet s id v) id = some v := by
  simp [mapGet, mapSet]

theorem mapGet_mapSet_other (s : Store) (id k : String) (v : List Turn) (h : k ≠ id) :
    mapGet (mapSet s id v) k = mapGet s k := by
  simp [mapGet, mapSet, h]

theorem getConversationHistory_add (s : Store) (id role content ts : String) :
    getConversationHistory (addToConversationHistory s id role content ts) id
      = trimLast10 (getConversationHistory s id
          ++ [{ role := role, content := content, timestamp := ts }]) := by
  unfold addToConversationHistory getConversationHistory trimLast10
  cases hs : s id with
  | none =>
    simp [mapHas, mapGet, mapSet, hs]
  | some l =>
    simp only [mapHas, mapGet, mapSet, hs, Option.isSome_some, if_true, Option.getD_some]
    rcases Nat.lt_or_ge (l.length + 1) 11 with h | h
    · rw [if_neg (by simp; omega)]
      rw [Nat.sub_eq_zero_of_le (by simp; omega), List.drop_zero]
    · rw [if_pos (by simp; omega)]

theorem trimLast10_length (l : List Turn) :
    (trimLast10 l).length = min l.length 10 := by
  simp [trimLast10]
  omega

theorem trimLast10_append_left (a b : List Turn) :
    trimLast10 (trimLast10 a ++ b) = trimLast10 (a ++ b) := by
  unfold trimLast10
  rw [List.drop_append_eq_append_drop, List.drop_append_eq_append_drop, List.drop_drop]
  have hlen : (a.drop (a.length - 10)).length = a.length - (a.length - 10) :=
    List.length_drop _ _
  congr 1
  · congr 1
    simp only [List.length_append, hlen]
    omega
  · congr 1
    simp only [List.length_append, hlen]
    omega

theorem getConversationHistory_appendAll (s : Store) (id : String)
    (ts : List (String × String × String))
    (h : (getConversationHistory s id).length ≤ 10) :
    getConversationHistory (appendAll s id ts) id
      = trimLast10 (getConversationHistory s id ++ ts.map mkTurn) := by
  induction ts generalizing s with
  | nil =>
    simp [appendAll, trimLast10]
    rw [Nat.sub_eq_zero_of_le h, List.drop_zero]
  | cons t rest ih =>
    have hstep : appendAll s id (t :: rest)
        = appendAll (addToConversationHistory s id t.1 t.2.1 t.2.2) id rest := by
      simp [appendAll]
    rw [hstep, ih]
    · rw [getConversationHistory_add, trimLast10_append_left]
      simp [mkTurn]
    · rw [getConversationHistory_add, trimLast10_length]
      omega

theorem mapGet_add_self (s : Store) (id role content ts : String) :
    mapGet (addToConversationHistory s id role content ts) id
      = some (getConversationHistory (addToConversationHistory s id role content ts) id) := by
  simp [addToConversationHistory, getConversationHistory, mapGet, mapSet]

theorem mapGet_add_other (s : Store) (id role content ts k : String) (hk : k ≠ id) :
    mapGet (addToConversationHistory s id role content ts) k = mapGet s k := by
  unfold addToConversationHistory
  cases h : mapHas s id <;> simp [h, mapGet, mapSet, hk]

theorem getLast?_get_add (s : Store) (id role content ts : String) :
    (getConversationHistory (addToConversationHistory s id role content ts) id).getLast?
      = some { role := role, content := content, timestamp := ts } := by
  rw [getConversationHistory_add]
  unfold trimLast10
  rw [List.drop_append_eq_append_drop]
  have h1 : (getConversationHistory s id
        ++ [({ role := role, content := content, timestamp := ts } : Turn)]).length - 10
      - (getConversationHistory s id).length = 0 := by
    simp [List.length_append]
  rw [h1]
  simp

-- ### C1

/-- C1: for every conversation identifier, after N appends to an initially
absent history, `get` returns exactly min(N, 10) turns, and they are the
most recent appended turns in append order (the oldest are evicted). -/
theorem c1_history_bound (s : Store) (id : String) (habs : mapGet s id = none)
    (ts : List (String × String × String)) :
    getConversationHistory (appendAll s id ts) id = (ts.map mkTurn).drop (ts.length - 10)
    ∧ (getConversationHistory (appendAll s id ts) id).length = min ts.length 10 := by
  have hemp : getConversationHistory s id = [] := by
    simp [getConversationHistory, habs]
  have h0 : (getConversationHistory s id).length ≤ 10 := by rw [hemp]; simp
  have key := getConversationHistory_appendAll s id ts h0
  rw [hemp, List.nil_append] at key
  refine ⟨?_, ?_⟩
  · rw [key]; unfold trimLast10; rw [List.length_map]
  · rw [key, trimLast10_length, List.length_map]

/-- Witness for C1 at a concrete store, identifier and 12 appends. -/
theorem c1_history_bound_witness :
    mapGet emptyStore "conv" = none
    ∧ (getConversationHistory (appendAll emptyStore "conv" c1SampleTurns) "conv"
        = (c1SampleTurns.map mkTurn).drop (c1SampleTurns.length - 10)
      ∧ (getConversationHistory (appendAll emptyStore "conv" c1SampleTurns) "conv").length
        = min c1SampleTurns.length 10) :=
  ⟨rfl, c1_history_bound emptyStore "conv" rfl c1SampleTurns⟩

-- ### C4

theorem boundedStore_applyOp (s : Store) (op : StoreOp) (h : boundedStore s) :
    boundedStore (applyOp s op) := by
  cases op with
  | append id role content ts =>
    intro k l hk
    by_cases hki : k = id
    · subst hki
      rw [show applyOp s (StoreOp.append k role content ts)
            = addToConversationHistory s k role content ts from rfl, mapGet_add_self] at hk
      cases hk
      rw [getConversationHistory_add, trimLast10_length]
      exact Nat.min_le_right _ _
    · rw [show applyOp s (StoreOp.append id role content ts)
            = addToConversationHistory s id role content ts from rfl,
          mapGet_add_other s id role content ts k hki] at hk
      exact h k l hk
  | clear id =>
    intro k l hk
    by_cases hki : k = id
    · subst hki
      simp [applyOp, clearConversationHistory, mapDelete, mapGet] at hk
    · simp [applyOp, clearConversationHistory, mapDelete, mapGet, hki] at hk
      exact h k l hk

theorem boundedStore_applyOps (s : Store) (ops : List StoreOp) (h : boundedStore s) :
    boundedStore (applyOps s ops) := by
  induction ops generalizing s with
  | nil => exact h
  | cons op rest ih => exact ih _ (boundedStore_applyOp s op h)

/-- C4: every history's length stays at most 10 under every sequence of
append and clear operations, and an append keeps the newest entries,
discarding from the front (the oldest) exactly when the bound would be
exceeded. -/
theorem c4_bounded_invariant :
    (∀ (s : Store) (ops : List StoreOp), boundedStore s → boundedStore (applyOps s ops))
    ∧ (∀ (s : Store) (id role content ts : String),
        getConversationHistory (addToConversationHistory s id role content ts) id
          = (getConversationHistory s id
              ++ [({ role := role, content := content, timestamp := ts } : Turn)]).drop
              ((getConversationHistory s id).length + 1 - 10)) := by
  constructor
  · exact fun s ops h => boundedStore_applyOps s ops h
  · intro s id role content ts
    rw [getConversationHistory_add]
    unfold trimLast10
    simp [List.length_append]

/-- Witness for C4: the bound holds after concrete operations on the empty
store. -/
theorem c4_bounded_invariant_witness :
    boundedStore emptyStore
    ∧ boundedStore (applyOps emptyStore
        [StoreOp.append "a" "user" "hi" "t1", StoreOp.clear "a",
         StoreOp.append "b" "user" "x" "t2"]) := by
  have hb : boundedStore emptyStore := by
    intro id l h
    simp [mapGet, emptyStore] at h
  exact ⟨hb, c4_bounded_invariant.1 emptyStore _ hb⟩

-- ### C5

/-- C5: clear followed by get returns the empty sequence whether or not the
identifier existed, clear removes the entry entirely, and clearing twice
equals clearing once. -/
theorem c5_clear_idempotent (s : Store) (id : String) :
    getConversationHistory (clearConversationHistory s id) id = []
    ∧ mapGet (clearConversationHistory s id) id = none
    ∧ clearConversationHistory (clearConversationHistory s id) id
      = clearConversationHistory s id := by
  refine ⟨?_, ?_, ?_⟩
  · simp [getConversationHistory, clearConversationHistory, mapGet, mapDelete]
  · simp [clearConversationHistory, mapGet, mapDelete]
  · funext k
    unfold clearConversationHistory mapDelete
    by_cases h : k = id <;> simp [h]

-- ### C9

/-- C9: the history endpoint leaves the store unchanged, and get on an
absent identifier returns the empty sequence. -/
theorem c9_get_never_mutates (s : Store) (conversationId? : Option String) (id : String) :
    (getConversationHistoryHandler s conversationId?).1 = s
    ∧ (mapGet s id = none → getConversationHistory s id = []) := by
  refine ⟨rfl, ?_⟩
  intro h
  simp [getConversationHistory, h]

/-- Witness for C9 at the empty store and an absent identifier. -/
theorem c9_get_never_mutates_witness :
    mapGet emptyStore "x" = none ∧ getConversationHistory emptyStore "x" = [] :=
  ⟨rfl, (c9_get_never_mutates emptyStore none "x").2 rfl⟩

-- ### C3

/-- C3: when the warehouse call fails, the pipeline aborts with the user
turn already appended and no assistant turn appended. -/
theorem c3_pipeline_abort (cfg : Config) (env : Env ρ) (s : Store)
    (messageText conversationId ts1 ts2 reply e : String)
    (hsql : env.sqlModelReply
        (buildPrompt cfg (addToConversationHistory s conversationId "user" messageText ts1)
          messageText conversationId) = .ok reply)
    (hbq : env.queryRows (extractSql reply) = .error e) :
    processMessage cfg env s messageText conversationId ts1 ts2
      = (addToConversationHistory s conversationId "user" messageText ts1, .error e)
    ∧ (getConversationHistory
          ((processMessage cfg env s messageText conversationId ts1 ts2).1)
          conversationId).getLast?
      = some { role := "user", content := messageText, timestamp := ts1 } := by
  have hmain : processMessage cfg env s messageText conversationId ts1 ts2
      = (addToConversationHistory s conversationId "user" messageText ts1, .error e) := by
    simp only [processMessage, getSQLFromGemini, runBigQuery, hsql, hbq]
  refine ⟨hmain, ?_⟩
  rw [hmain]
  exact getLast?_get_add s conversationId "user" messageText ts1

/-- Witness for C3: a concrete run whose warehouse call fails. -/
theorem c3_pipeline_abort_witness :
    wEnvFail.sqlModelReply
        (buildPrompt wCfg (addToConversationHistory emptyStore "c" "user" "hi" "t1") "hi" "c")
      = .ok "```sql\nSELECT 1\n```"
    ∧ wEnvFail.queryRows (extractSql "```sql\nSELECT 1\n```") = .error "boom"
    ∧ (processMessage wCfg wEnvFail emptyStore "hi" "c" "t1" "t2"
        = (addToConversationHistory emptyStore "c" "user" "hi" "t1", .error "boom")
      ∧ (getConversationHistory
            ((processMessage wCfg wEnvFail emptyStore "hi" "c" "t1" "t2").1) "c").getLast?
        = some { role := "user", content := "hi", timestamp := "t1" }) :=
  ⟨rfl, rfl,
   c3_pipeline_abort wCfg wEnvFail emptyStore "hi" "c" "t1" "t2"
     "```sql\nSELECT 1\n```" "boom" rfl rfl⟩

-- ### C6

/-- C6: buildPrompt depends only on the question, the history, the catalog
and the project identifier: two stores presenting the same history (and
equal configuration) produce byte-identical prompts — the function is
deterministic, with no hidden input. -/
theorem c6_prompt_deterministic (cfg cfg' : Config) (s s' : Store)
    (messageText conversationId conversationId' : String)
    (hproj : cfg.projectId = cfg'.projectId)
    (hcat : cfg.catalog = cfg'.catalog)
    (_hagent : cfg.agentName = cfg'.agentName)
    (hhist : getConversationHistory s conversationId
      = getConversationHistory s' conversationId') :
    buildPrompt cfg s messageText conversationId
      = buildPrompt cfg' s' messageText conversationId' := by
  simp only [buildPrompt, hproj, hcat, hhist]

/-- Witness for C6: two distinct stores presenting the same (empty)
history yield the same prompt. -/
theorem c6_prompt_deterministic_witness :
    wCfg.projectId = wCfg.projectId ∧ wCfg.catalog = wCfg.catalog
    ∧ wCfg.agentName = wCfg.agentName
    ∧ getConversationHistory emptyStore "q" = getConversationHistory (mapSet emptyStore "z" []) "q"
    ∧ buildPrompt wCfg emptyStore "hello" "q" = buildPrompt wCfg (mapSet emptyStore "z" []) "hello" "q" :=
  ⟨rfl, rfl, rfl, by decide,
   c6_prompt_deterministic wCfg wCfg emptyStore (mapSet emptyStore "z" []) "hello" "q" "q"
     rfl rfl rfl (by decide)⟩

-- ### C10

/-- C10: a conversationId equal to the empty string is coerced to
"default" by all three endpoints, exactly like an omitted one. -/
theorem c10_empty_conversation_id (cfg : Config) (env : Env ρ) (s : Store)
    (messageText ts1 ts2 : String) :
    chatBot cfg env s messageText (some "") ts1 ts2
      = chatBot cfg env s messageText none ts1 ts2
    ∧ clearConversation s (some "") = clearConversation s none
    ∧ getConversationHistoryHandler s (some "") = getConversationHistoryHandler s none := by
  refine ⟨?_, ?_, ?_⟩ <;>
    simp [chatBot, clearConversation, getConversationHistoryHandler]

-- ### C8

theorem processMessage_frame (cfg : Config) (env : Env ρ) (s : Store)
    (messageText conversationId ts1 ts2 k : String) (hk : k ≠ conversationId) :
    mapGet ((processMessage cfg env s messageText conversationId ts1 ts2).1) k
      = mapGet s k := by
  simp only [processMessage]
  cases hg : getSQLFromGemini env
      (buildPrompt cfg (addToConversationHistory s conversationId "user" messageText ts1)
        messageText conversationId) with
  | error e =>
    simp only [hg]
    exact mapGet_add_other s conversationId "user" messageText ts1 k hk
  | ok sqlQuery =>
    simp only [hg]
    cases hb : runBigQuery env sqlQuery with
    | error e =>
      simp only [hb]
      exact mapGet_add_other s conversationId "user" messageText ts1 k hk
    | ok rows =>
      simp only [hb]
      cases hf : formatBigQueryResult cfg env messageText rows with
      | error e =>
        simp only [hf]
        exact mapGet_add_other s conversationId "user" messageText ts1 k hk
      | ok formatted =>
        simp only [hf]
        rw [mapGet_add_other _ conversationId "assistant" formatted ts2 k hk]
        exact mapGet_add_other s conversationId "user" messageText ts1 k hk

/-- C8: every request that omits conversationId behaves exactly as one that
passes the literal "default", for all three endpoints; a chat request
omitting the identifier touches no history other than the one stored
under "default" (so two such requests share one history). -/
theorem c8_default_identifier (cfg : Config) (env : Env ρ) (s : Store)
    (messageText ts1 ts2 : String) :
    chatBot cfg env s messageText none ts1 ts2
      = chatBot cfg env s messageText (some "default") ts1 ts2
    ∧ clearConversation s none = clearConversation s (some "default")
    ∧ getConversationHistoryHandler s none = getConversationHistoryHandler s (some "default")
    ∧ (∀ k, k ≠ "default" →
        mapGet ((chatBot cfg env s messageText none ts1 ts2).1) k = mapGet s k) := by
  refine ⟨?_, ?_, ?_, ?_⟩
  · simp [chatBot]
  · simp [clearConversation]
  · simp [getConversationHistoryHandler]
  · intro k hk
    have hframe := processMessage_frame cfg env s messageText "default" ts1 ts2 k hk
    simp only [chatBot]
    rcases hp : processMessage cfg env s messageText "default" ts1 ts2 with ⟨s2, r⟩
    rw [hp] at hframe
    cases r <;> simpa [hp] using hframe

/-- Witness for C8: the frame part at a concrete store and identifier. -/
theorem c8_default_identifier_witness :
    ("other" : String) ≠ "default"
    ∧ mapGet ((chatBot wCfg wEnvFail emptyStore "hi" none "t1" "t2").1) "other"
      = mapGet emptyStore "other" :=
  ⟨by decide,
   (c8_default_identifier wCfg wEnvFail emptyStore "hi" "t1" "t2").2.2.2 "other" (by decide)⟩

-- ### C2

theorem takeUntilTicks_cons (c : Char) (cs : List Char) :
    takeUntilTicks (c :: cs)
      = if startsWithTicks3 (c :: cs) then some []
        else (takeUntilTicks cs).map (fun l => c :: l) := rfl

theorem hasTicks3_cons (c : Char) (cs : List Char) :
    hasTicks3 (c :: cs) = (startsWithTicks3 (c :: cs) || hasTicks3 cs) := rfl

theorem findSqlFence_cons (c : Char) (cs : List Char) :
    findSqlFence (c :: cs)
      = if sqlFenceAt (c :: cs) then
          match takeUntilTicks ((c :: cs).drop 7) with
          | some interior => some interior
          | none => findSqlFence cs
        else findSqlFence cs := rfl

theorem startsWithTicks3_append_ticks (l : List Char) (post : List Char) (hl : l ≠ []) :
    startsWithTicks3 (l ++ '`' :: '`' :: '`' :: post)
      = startsWithTicks3 (l ++ ['`', '`']) := by
  match l with
  | [] => exact absurd rfl hl
  | [a] => simp [startsWithTicks3]
  | [a, b] => simp [startsWithTicks3]
  | a :: b :: c :: t => simp [startsWithTicks3]

theorem takeUntilTicks_exact (mid post : List Char)
    (h : hasTicks3 (mid ++ ['`', '`']) = false) :
    takeUntilTicks (mid ++ '`' :: '`' :: '`' :: post) = some mid := by
  induction mid with
  | nil => simp [takeUntilTicks, startsWithTicks3]
  | cons c cs ih =>
    rw [List.cons_append] at h ⊢
    rw [hasTicks3_cons, Bool.or_eq_false_iff] at h
    have hsw : startsWithTicks3 (c :: (cs ++ '`' :: '`' :: '`' :: post)) = false := by
      have hs := startsWithTicks3_append_ticks (c :: cs) post (by simp)
      rw [List.cons_append] at hs
      rw [hs, List.cons_append]
      exact h.1
    rw [takeUntilTicks_cons, hsw]
    simp only [Bool.false_eq_true, if_false]
    rw [ih h.2]
    rfl

theorem sqlFenceAt_cons_ne (c : Char) (t : List Char) (hc : c ≠ '`') :
    sqlFenceAt (c :: t) = false := by
  match t with
  | [] => rfl
  | [_] => rfl
  | [_, _] => rfl
  | [_, _, _] => rfl
  | [_, _, _, _] => rfl
  | [_, _, _, _, _] => rfl
  | _ :: _ :: _ :: _ :: _ :: _ :: _ => simp [sqlFenceAt, hc]

theorem findSqlFence_exact (pre : List Char) (s q l : Char) (mid post : List Char)
    (hpre : '`' ∉ pre) (hs : s.toLower = 's') (hq : q.toLower = 'q') (hl : l.toLower = 'l')
    (hmid : hasTicks3 (mid ++ ['`', '`']) = false) :
    findSqlFence (pre ++ '`' :: '`' :: '`' :: s :: q :: l :: '\n'
        :: (mid ++ '`' :: '`' :: '`' :: post))
      = some mid := by
  induction pre with
  | nil =>
    rw [List.nil_append, findSqlFence_cons]
    have hfence : sqlFenceAt ('`' :: '`' :: '`' :: s :: q :: l :: '\n'
        :: (mid ++ '`' :: '`' :: '`' :: post)) = true := by
      simp [sqlFenceAt, hs, hq, hl]
    rw [hfence]
    simp only [if_true]
    have hdrop : (('`' :: '`' :: '`' :: s :: q :: l :: '\n'
        :: (mid ++ '`' :: '`' :: '`' :: post)) : List Char).drop 7
        = mid ++ '`' :: '`' :: '`' :: post := rfl
    rw [hdrop, takeUntilTicks_exact mid post hmid]
  | cons a pre ih =>
    have ha : a ≠ '`' := fun hEq => hpre (hEq ▸ List.mem_cons_self a pre)
    have hpre' : '`' ∉ pre := fun hmem => hpre (List.mem_cons_of_mem a hmem)
    rw [List.cons_append, findSqlFence_cons, sqlFenceAt_cons_ne a _ ha]
    simp only [Bool.false_eq_true, if_false]
    exact ih hpre'

theorem startsWithTicks3_eq_true (cs : List Char) (h : startsWithTicks3 cs = true) :
    ∃ t, cs = '`' :: '`' :: '`' :: t := by
  match cs with
  | [] => simp [startsWithTicks3] at h
  | [a] => simp [startsWithTicks3] at h
  | [a, b] => simp [startsWithTicks3] at h
  | a :: b :: c :: t =>
    simp only [startsWithTicks3, Bool.and_eq_true, decide_eq_true_eq] at h
    obtain ⟨⟨h1, h2⟩, h3⟩ := h
    exact ⟨t, by rw [h1, h2, h3]⟩

theorem takeUntilTicks_some (cs : List Char) :
    ∀ mid, takeUntilTicks cs = some mid → ∃ post, cs = mid ++ '`' :: '`' :: '`' :: post := by
  induction cs with
  | nil => intro mid h; simp [takeUntilTicks] at h
  | cons c cs ih =>
    intro mid h
    rw [takeUntilTicks_cons] at h
    by_cases hsw : startsWithTicks3 (c :: cs) = true
    · rw [hsw, if_pos rfl] at h
      obtain ⟨t, ht⟩ := startsWithTicks3_eq_true _ hsw
      cases h
      exact ⟨t, by rw [ht]; rfl⟩
    · rw [Bool.not_eq_true] at hsw
      rw [hsw] at h
      simp only [Bool.false_eq_true, if_false, Option.map_eq_some'] at h
      obtain ⟨m, hm, hmid⟩ := h
      obtain ⟨post, hpost⟩ := ih m hm
      exact ⟨post, by rw [← hmid, hpost]; rfl⟩

theorem sqlFenceAt_eq_true (cs : List Char) (h : sqlFenceAt cs = true) :
    ∃ s q l t, cs = '`' :: '`' :: '`' :: s :: q :: l :: '\n' :: t
      ∧ s.toLower = 's' ∧ q.toLower = 'q' ∧ l.toLower = 'l' := by
  match cs with
  | [] => simp [sqlFenceAt] at h
  | [_] => simp [sqlFenceAt] at h
  | [_, _] => simp [sqlFenceAt] at h
  | [_, _, _] => simp [sqlFenceAt] at h
  | [_, _, _, _] => simp [sqlFenceAt] at h
  | [_, _, _, _, _] => simp [sqlFenceAt] at h
  | [_, _, _, _, _, _] => simp [sqlFenceAt] at h
  | a :: b :: c :: s :: q :: l :: n :: t =>
    simp only [sqlFenceAt, Bool.and_eq_true, decide_eq_true_eq] at h
    obtain ⟨⟨⟨⟨⟨⟨h1, h2⟩, h3⟩, hs⟩, hq⟩, hl⟩, hn⟩ := h
    exact ⟨s, q, l, t, by rw [h1, h2, h3, hn], hs, hq, hl⟩

theorem findSqlFence_some (cs : List Char) :
    ∀ mid, findSqlFence cs = some mid →
      ∃ pre s q l post,
        cs = pre ++ '`' :: '`' :: '`' :: s :: q :: l :: '\n'
            :: (mid ++ '`' :: '`' :: '`' :: post)
        ∧ s.toLower = 's' ∧ q.toLower = 'q' ∧ l.toLower = 'l' := by
  induction cs with
  | nil => intro mid h; simp [findSqlFence] at h
  | cons c cs ih =>
    intro mid h
    rw [findSqlFence_cons] at h
    by_cases hf : sqlFenceAt (c :: cs) = true
    · rw [hf, if_pos rfl] at h
      obtain ⟨s, q, l, t, hshape, hs, hq, hl⟩ := sqlFenceAt_eq_true _ hf
      have hdrop : ((c :: cs) : List Char).drop 7 = t := by rw [hshape]; rfl
      rw [hdrop] at h
      cases htk : takeUntilTicks t with
      | some interior =>
        rw [htk] at h
        cases h
        obtain ⟨post, hpost⟩ := takeUntilTicks_some t mid htk
        exact ⟨[], s, q, l, post, by rw [hshape, hpost]; rfl, hs, hq, hl⟩
      | none =>
        rw [htk] at h
        obtain ⟨pre', s', q', l', post', hshape', hs', hq', hl'⟩ := ih mid h
        exact ⟨c :: pre', s', q', l', post', by rw [List.cons_append, ← hshape'], hs', hq', hl'⟩
    · rw [Bool.not_eq_true] at hf
      rw [hf] at h
      simp only [Bool.false_eq_true, if_false] at h
      obtain ⟨pre', s', q', l', post', hshape', hs', hq', hl'⟩ := ih mid h
      exact ⟨c :: pre', s', q', l', post', by rw [List.cons_append, ← hshape'], hs', hq', hl'⟩

theorem hasTicks3_append_ticks (a b : List Char) :
    hasTicks3 (a ++ '`' :: '`' :: '`' :: b) = true := by
  induction a with
  | nil => simp [hasTicks3_cons, startsWithTicks3]
  | cons c cs ih =>
    rw [List.cons_append, hasTicks3_cons, ih]
    simp

theorem not_containsSqlFence_of_no_ticks (cs : List Char) (h : hasTicks3 cs = false) :
    ¬ containsSqlFence cs := by
  rintro ⟨pre, s, q, l, mid, post, hshape, -, -, -⟩
  rw [hshape, hasTicks3_append_ticks] at h
  exact Bool.true_eq_false.mp h

/-- C2: the parsing step of getSQLFromGemini returns the trimmed interior
of a fenced code block tagged sql (tag matched case-insensitively) when
the reply contains one, and the whole reply trimmed when it contains
none. -/
theorem c2_extract_sql :
    (∀ (pre : List Char) (s q l : Char) (mid post : List Char),
        '`' ∉ pre → s.toLower = 's' → q.toLower = 'q' → l.toLower = 'l' →
        hasTicks3 (mid ++ ['`', '`']) = false →
        extractSql (String.mk (pre ++ '`' :: '`' :: '`' :: s :: q :: l :: '\n'
            :: (mid ++ '`' :: '`' :: '`' :: post)))
          = (String.mk mid).trim)
    ∧ (∀ reply : String, ¬ containsSqlFence reply.toList → extractSql reply = reply.trim) := by
  constructor
  · intro pre s q l mid post hpre hs hq hl hmid
    unfold extractSql
    have htl : (String.mk (pre ++ '`' :: '`' :: '`' :: s :: q :: l :: '\n'
        :: (mid ++ '`' :: '`' :: '`' :: post))).toList
        = pre ++ '`' :: '`' :: '`' :: s :: q :: l :: '\n'
            :: (mid ++ '`' :: '`' :: '`' :: post) := rfl
    rw [htl, findSqlFence_exact pre s q l mid post hpre hs hq hl hmid]
  · intro reply hn
    unfold extractSql
    cases hfind : findSqlFence reply.toList with
    | none => rfl
    | some mid =>
      exfalso
      obtain ⟨pre, s, q, l, post, hshape, hs, hq, hl⟩ := findSqlFence_some _ mid hfind
      exact hn ⟨pre, s, q, l, mid, post, hshape, hs, hq, hl⟩

/-- Witness for C2: a concrete reply with a fenced sql block (mixed-case
tag) and a concrete reply with no fence at all. -/
theorem c2_extract_sql_witness :
    ('`' ∉ ['x', ' '])
    ∧ Char.toLower 's' = 's' ∧ Char.toLower 'Q' = 'q' ∧ Char.toLower 'l' = 'l'
    ∧ hasTicks3 (['S', 'E', 'L', 'E', 'C', 'T', ' ', '1'] ++ ['`', '`']) = false
    ∧ extractSql (String.mk (['x', ' '] ++ '`' :: '`' :: '`' :: 's' :: 'Q' :: 'l' :: '\n'
        :: (['S', 'E', 'L', 'E', 'C', 'T', ' ', '1'] ++ '`' :: '`' :: '`' :: [])))
      = (String.mk ['S', 'E', 'L', 'E', 'C', 'T', ' ', '1']).trim
    ∧ (¬ containsSqlFence (String.mk ['n', 'o', ' ', 'f', 'e', 'n', 'c', 'e']).toList
      ∧ extractSql (String.mk ['n', 'o', ' ', 'f', 'e', 'n', 'c', 'e'])
        = (String.mk ['n', 'o', ' ', 'f', 'e', 'n', 'c', 'e']).trim) := by
  refine ⟨by decide, by decide, by decide, by decide, by decide, ?_, ?_, ?_⟩
  · exact c2_extract_sql.1 ['x', ' '] 's' 'Q' 'l'
      ['S', 'E', 'L', 'E', 'C', 'T', ' ', '1'] []
      (by decide) (by decide) (by decide) (by decide) (by decide)
  · exact not_containsSqlFence_of_no_ticks _ (by decide)
  · exact c2_extract_sql.2 (String.mk ['n', 'o', ' ', 'f', 'e', 'n', 'c', 'e'])
      (not_containsSqlFence_of_no_ticks _ (by decide))

-- ### C7

theorem strInfix_here (a x b : String) : ∃ u v, a ++ x ++ b = u ++ x ++ v :=
  ⟨a, b, rfl⟩

theorem strInfix_suffix (a x : String) : ∃ u v, a ++ x = u ++ x ++ v :=
  ⟨a, "", by rw [String.append_empty]⟩

theorem strInfix_append_right (x a b : String) (h : ∃ u v, a = u ++ x ++ v) :
    ∃ u v, a ++ b = u ++ x ++ v := by
  obtain ⟨u, v, huv⟩ := h
  exact ⟨u, v ++ b, by rw [huv]; simp [String.append_assoc]⟩

theorem strInfix_append_left (x a b : String) (h : ∃ u v, b = u ++ x ++ v) :
    ∃ u v, a ++ b = u ++ x ++ v := by
  obtain ⟨u, v, huv⟩ := h
  exact ⟨a ++ u, v, by rw [huv]; simp [String.append_assoc]⟩

theorem joinWith_mem (sep : String) (l : List String) (x : String) (hx : x ∈ l) :
    ∃ u v, joinWith sep l = u ++ x ++ v := by
  induction l with
  | nil => cases hx
  | cons a t ih =>
    cases t with
    | nil =>
      rw [List.mem_singleton] at hx
      subst hx
      exact ⟨"", "", by simp [joinWith, String.append_empty, String.empty_append]⟩
    | cons b t' =>
      rcases List.mem_cons.mp hx with h | h
      · subst h
        show ∃ u v, x ++ sep ++ joinWith sep (b :: t') = u ++ x ++ v
        exact ⟨"", sep ++ joinWith sep (b :: t'),
          by simp [String.append_assoc, String.empty_append]⟩
      · obtain ⟨u, v, huv⟩ := ih h
        show ∃ u' v', a ++ sep ++ joinWith sep (b :: t') = u' ++ x ++ v'
        rw [huv]
        exact ⟨a ++ sep ++ u, v, by simp [String.append_assoc]⟩

theorem strInfix2_lift (x y m w : String)
    (h1 : ∃ u v t, m = u ++ x ++ v ++ y ++ t)
    (h2 : ∃ u v, w = u ++ m ++ v) :
    ∃ u v t, w = u ++ x ++ v ++ y ++ t := by
  obtain ⟨u1, v1, t1, hm⟩ := h1
  obtain ⟨u2, v2, hw⟩ := h2
  exact ⟨u2 ++ u1, v1, t1 ++ v2, by rw [hw, hm]; simp [String.append_assoc]⟩

theorem schemaEntry_decomp (projectId : String) (table : TableDescriptor) :
    schemaEntry projectId table
      = "\n    Table: `" ++ fqTableName projectId table ++ "`\n\n    Table schema:\n    "
          ++ joinWith "\n    " (table.schema.map columnLine) ++ "\n    " := by
  simp [schemaEntry, fqTableName, String.append_assoc]

theorem buildPrompt_contains_schemas (cfg : Config) (store : Store)
    (messageText conversationId : String) :
    ∃ u v, buildPrompt cfg store messageText conversationId
      = u ++ joinWith "\n" (cfg.catalog.map (schemaEntry cfg.projectId)) ++ v := by
  simp only [buildPrompt]
  apply strInfix_append_right
  apply strInfix_append_right
  apply strInfix_append_right
  apply strInfix_append_right
  apply strInfix_append_right
  exact strInfix_suffix _ _

theorem buildPrompt_contains_context (cfg : Config) (store : Store)
    (messageText conversationId : String)
    (h : getConversationHistory store conversationId ≠ []) :
    ∃ u v, buildPrompt cfg store messageText conversationId
      = u ++ joinWith "\n" ((getConversationHistory store conversationId).map renderTurnLine)
          ++ v := by
  simp only [buildPrompt]
  apply strInfix_append_right
  apply strInfix_append_right
  apply strInfix_append_right
  apply strInfix_append_left
  rw [if_pos (List.length_pos.mpr h)]
  exact strInfix_here _ _ _

/-- C7: the prompt contains, for every catalog table, its fully-qualified
`project.dataset.table` name followed (after fixed glue) by its rendered
column name/type list, and, when the history is non-empty, the history
rendered as "User:"/"Assistant:" lines joined in order. -/
theorem c7_prompt_contents (cfg : Config) (store : Store)
    (messageText conversationId : String) :
    (∀ table ∈ cfg.catalog, ∃ u v w : String,
        buildPrompt cfg store messageText conversationId
          = u ++ fqTableName cfg.projectId table ++ v
              ++ joinWith "\n    " (table.schema.map columnLine) ++ w)
    ∧ (getConversationHistory store conversationId ≠ [] →
        ∃ u v : String,
          buildPrompt cfg store messageText conversationId
            = u ++ joinWith "\n"
                ((getConversationHistory store conversationId).map renderTurnLine) ++ v) := by
  constructor
  · intro table htable
    apply strInfix2_lift _ _ (schemaEntry cfg.projectId table)
    · refine ⟨"\n    Table: `", "`\n\n    Table schema:\n    ", "\n    ", ?_⟩
      exact schemaEntry_decomp cfg.projectId table
    · have hmem := joinWith_mem "\n" (cfg.catalog.map (schemaEntry cfg.projectId))
        (schemaEntry cfg.projectId table) (List.mem_map_of_mem _ htable)
      obtain ⟨u1, v1, h1⟩ := hmem
      obtain ⟨u2, v2, h2⟩ := buildPrompt_contains_schemas cfg store messageText conversationId
      rw [h1] at h2
      exact ⟨u2 ++ u1, v1 ++ v2, by rw [h2]; simp [String.append_assoc]⟩
  · exact buildPrompt_contains_context cfg store messageText conversationId

/-- Witness for C7 at a concrete catalog and a concrete non-empty
history. -/
theorem c7_prompt_contents_witness :
    (wTable ∈ wCfg7.catalog
      ∧ ∃ u v w : String, buildPrompt wCfg7 wStore7 "q" "c"
          = u ++ fqTableName wCfg7.projectId wTable ++ v
              ++ joinWith "\n    " (wTable.schema.map columnLine) ++ w)
    ∧ (getConversationHistory wStore7 "c" ≠ []
      ∧ ∃ u v : String, buildPrompt wCfg7 wStore7 "q" "c"
          = u ++ joinWith "\n" ((getConversationHistory wStore7 "c").map renderTurnLine) ++ v) :=
  ⟨⟨by decide, (c7_prompt_contents wCfg7 wStore7 "q" "c").1 wTable (by decide)⟩,
   ⟨by decide, (c7_prompt_contents wCfg7 wStore7 "q" "c").2 (by decide)⟩⟩
